import Mathlib

/-!
Verification development for the Sentinel repository (Go).

The definitions below are a shallow embedding of the token engine
(internal/auth/auth.go), the per-key token-bucket rate limiter
(internal/middleware/auth_middleware.go, both variants), the middleware
composition helper and route wiring (internal/server/server.go and the
unnamed server variant), and the login handler response shape
(internal/handlers/handlers.go).

Timestamps and durations are modelled as integers with second precision:
the JWT library stores issued-at and expiry as NumericDate values truncated
to whole seconds (TimePrecision = time.Second), and the design data model
declares second-precision timestamps.  Clock time is passed explicitly as a
parameter (the Go code reads time.Now at the corresponding points).

The HMAC-SHA256 signature over the encoded claims is modelled abstractly:
a signed token records the signing key, and verification succeeds exactly
when the verifier key matches (a standard collision-free abstraction of a
keyed MAC).
-/

namespace Sentinel

/-! ## Token engine: internal/auth/auth.go -/

/-- Runtime configuration (internal/config): only the JWT secret matters here. -/
structure Config where
  jwtSecret : String
deriving Repr, DecidableEq

/-- The Auth engine holds the signing secret (auth.go line 32). -/
structure Auth where
  secret : String
deriving Repr, DecidableEq

/-- Auth.New (auth.go lines 35-41): nil config leaves the secret empty. -/
def Auth.new (cfg : Option Config) : Auth :=
  { secret := match cfg with
              | some c => c.jwtSecret
              | none => "" }

/-- Error of ErrNoSecret (auth.go line 20). -/
def errNoSecret : String := "jwt secret not configured"

/-- Error returned by GenerateTokenWithType when ttl is not positive (auth.go line 78). -/
def errInvalidTTL : String := "ttl must be > 0"

/-- Error returned by ParseToken on an empty token string (auth.go line 100). -/
def errEmptyToken : String := "token empty"

/-- Error returned by the key function on a non-HMAC signing method (auth.go line 105). -/
def errBadMethod : String := "unexpected signing method"

/-- Signature verification failure reported by the jwt library. -/
def errBadSignature : String := "token signature is invalid"

/-- Expiry failure reported by the jwt library claim validator (exp check). -/
def errLibExpired : String := "token has invalid claims: token is expired"

/-- Error of the explicit expiry re-check in ParseToken (auth.go line 118). -/
def errExpired : String := "token expired"

/-- Error of the issued-at future check in ParseToken (auth.go line 127). -/
def errIssuedFuture : String := "token issued too far in the future"

/-- The JWT claim set (auth.go lines 25-30): uid, role, token_type plus the
registered issued-at and expiry numeric dates (seconds). -/
structure TokenClaims where
  userID : String
  role : String
  tokenType : String
  issuedAt : Int
  expiresAt : Int
deriving Repr, DecidableEq

/-- A signed compact token: header algorithm, payload claims and the HMAC
signature, the latter modelled by the signing key (see the file comment). -/
structure SignedToken where
  alg : String
  claims : TokenClaims
  sig : String
deriving Repr, DecidableEq

/-- The key function of ParseToken accepts any HMAC signing method
(auth.go lines 103-108); the jwt library HMAC family is HS256/384/512. -/
def isHMACAlg (alg : String) : Bool :=
  alg = "HS256" || alg = "HS384" || alg = "HS512"

/-- GenerateTokenWithType (auth.go lines 73-92): empty-secret check, then the
ttl check, then claims stamped with issuedAt = now, expiresAt = now + ttl,
signed with HS256 over the configured secret. -/
def Auth.generateTokenWithType (a : Auth) (userID role tokenType : String)
    (ttl : Int) (now : Int) : Except String SignedToken :=
  if a.secret = "" then .error errNoSecret
  else if ttl ≤ 0 then .error errInvalidTTL
  else .ok { alg := "HS256"
           , claims := { userID := userID
                       , role := role
                       , tokenType := tokenType
                       , issuedAt := now
                       , expiresAt := now + ttl }
           , sig := a.secret }

/-- GenerateToken (auth.go lines 68-70): access-token wrapper. -/
def Auth.generateToken (a : Auth) (userID role : String) (ttl : Int) (now : Int) :
    Except String SignedToken :=
  a.generateTokenWithType userID role "access" ttl now

/-- Forward clock-skew tolerance of ParseToken, one minute in seconds
(auth.go line 125). -/
def maxFutureSkew : Int := 60

/-- ParseToken (auth.go lines 95-132).  A token string on the wire is either
empty (none) or a decodable signed token.  Checks in source order: configured
secret, non-empty string, HMAC method (key function), signature (jwt v5
verifies the signature before validating claims), the library expiry check
(valid only while now < expiresAt, so exactly at expiresAt is already
expired), the explicit expiry re-check (now strictly after expiresAt), and
the issued-at forward-skew check. -/
def Auth.parseToken (a : Auth) (tokenStr : Option SignedToken) (now : Int) :
    Except String TokenClaims :=
  if a.secret = "" then .error errNoSecret
  else
    match tokenStr with
    | none => .error errEmptyToken
    | some t =>
      if ¬ isHMACAlg t.alg then .error errBadMethod
      else if t.sig ≠ a.secret then .error errBadSignature
      else if ¬ (now < t.claims.expiresAt) then .error errLibExpired
      else if t.claims.expiresAt < now then .error errExpired
      else if now + maxFutureSkew < t.claims.issuedAt then .error errIssuedFuture
      else .ok t.claims

/-! ## Rate limiter: internal/middleware/auth_middleware.go

The file holds two implementations of the same token-bucket limiter: a
coarse variant whose Allow runs entirely under one mutex, and a
fine-grained variant with per-visitor locks, a stop channel and an
idempotent Stop.  Sequentially (one call at a time) the locks have no
observable effect, so both embeddings below are state-passing functions;
the fine variant keeps its double-checked creation path and stopped flag.
Times are integers (seconds); rate is the refill interval in the same unit.
Division of durations in Go truncates toward zero, which Int.tdiv matches. -/

/-- Per-key bucket state (the visitor struct): last refill time and the
available tokens. -/
structure Visitor where
  lastSeen : Int
  tokens : Int
deriving Repr, DecidableEq

/-- Coarse single-mutex limiter (auth_middleware.go lines 60-65): visitor
map, refill interval and burst capacity. -/
structure RateLimiter where
  visitors : List (String × Visitor)
  rate : Int
  capacity : Int
deriving Repr, DecidableEq

/-- Go map lookup on the visitor map. -/
def lookupV (ip : String) : List (String × Visitor) → Option Visitor
  | [] => none
  | (k, v) :: rest => if k = ip then some v else lookupV ip rest

/-- Go map store on the visitor map: replace the entry when the key is
present, append when absent. -/
def setVisitor (ip : String) (v : Visitor) :
    List (String × Visitor) → List (String × Visitor)
  | [] => [(ip, v)]
  | (k, w) :: rest =>
      if k = ip then (k, v) :: rest else (k, w) :: setVisitor ip v rest

/-- NewRateLimiter (lines 75-86): empty visitor map with the given rate and
capacity.  The background cleanup goroutine it spawns only evicts idle
entries and is not part of the Allow semantics. -/
def newRateLimiter (rate capacity : Int) : RateLimiter :=
  { visitors := [], rate := rate, capacity := capacity }

/-- Allow of the coarse variant (lines 89-123): on first sight of a key the
bucket is created with capacity - 1 tokens and lastSeen = now and the call
is admitted; otherwise floor(elapsed / rate) tokens are added when positive
(clamped to capacity, advancing lastSeen), then one token is consumed when
any is available. -/
def RateLimiter.Allow (rl : RateLimiter) (ip : String) (now : Int) :
    Bool × RateLimiter :=
  match lookupV ip rl.visitors with
  | none =>
      (true, { rl with
                visitors := setVisitor ip ⟨now, rl.capacity - 1⟩ rl.visitors })
  | some v =>
      let elapsed := now - v.lastSeen
      let tokensToAdd := Int.tdiv elapsed rl.rate
      let v1 : Visitor :=
        if 0 < tokensToAdd then
          ⟨now, if rl.capacity < v.tokens + tokensToAdd then rl.capacity
                else v.tokens + tokensToAdd⟩
        else v
      if 0 < v1.tokens then
        (true, { rl with
                  visitors := setVisitor ip ⟨v1.lastSeen, v1.tokens - 1⟩ rl.visitors })
      else
        (false, { rl with visitors := setVisitor ip v1 rl.visitors })

/-- Fine-grained limiter (lines 214-221): same bucket map plus the stop
flag of its cleanup goroutine (the per-visitor mutex has no sequential
content). -/
structure RateLimiter2 where
  visitors : List (String × Visitor)
  rate : Int
  capacity : Int
  stopped : Bool
deriving Repr, DecidableEq

/-- NewRateLimiter of the fine variant (lines 232-245). -/
def newRateLimiter2 (rate capacity : Int) : RateLimiter2 :=
  { visitors := [], rate := rate, capacity := capacity, stopped := false }

/-- Stop (lines 248-252): compare-and-swap on the stopped flag, hence
idempotent. -/
def RateLimiter2.stop (rl : RateLimiter2) : RateLimiter2 :=
  if rl.stopped then rl else { rl with stopped := true }

/-- Allow of the fine variant (lines 256-304): read now, look up under the
read lock; when absent, double-check under the write lock and create the
bucket with capacity - 1 tokens; otherwise refill by floor(elapsed / rate)
clamped to capacity and consume one token when available. -/
def RateLimiter2.Allow (rl : RateLimiter2) (ip : String) (now : Int) :
    Bool × RateLimiter2 :=
  match lookupV ip rl.visitors with
  | none =>
      match lookupV ip rl.visitors with
      | none =>
          (true, { rl with
                    visitors := setVisitor ip ⟨now, rl.capacity - 1⟩ rl.visitors })
      | some v =>
          let elapsed := now - v.lastSeen
          let tokensToAdd := Int.tdiv elapsed rl.rate
          let v1 : Visitor :=
            if 0 < tokensToAdd then
              ⟨now, if rl.capacity < v.tokens + tokensToAdd then rl.capacity
                    else v.tokens + tokensToAdd⟩
            else v
          if 0 < v1.tokens then
            (true, { rl with
                      visitors := setVisitor ip ⟨v1.lastSeen, v1.tokens - 1⟩ rl.visitors })
          else
            (false, { rl with visitors := setVisitor ip v1 rl.visitors })
  | some v =>
      let elapsed := now - v.lastSeen
      let tokensToAdd := Int.tdiv elapsed rl.rate
      let v1 : Visitor :=
        if 0 < tokensToAdd then
          ⟨now, if rl.capacity < v.tokens + tokensToAdd then rl.capacity
                else v.tokens + tokensToAdd⟩
        else v
      if 0 < v1.tokens then
        (true, { rl with
                  visitors := setVisitor ip ⟨v1.lastSeen, v1.tokens - 1⟩ rl.visitors })
      else
        (false, { rl with visitors := setVisitor ip v1 rl.visitors })

/-- Sequential execution of Allow calls on the coarse limiter: the list of
admit/reject decisions and the final state. -/
def runTrace : RateLimiter → List (String × Int) → List Bool × RateLimiter
  | rl, [] => ([], rl)
  | rl, (ip, t) :: rest =>
      let step := rl.Allow ip t
      let res := runTrace step.2 rest
      (step.1 :: res.1, res.2)

/-- Sequential execution of Allow calls on the fine-grained limiter. -/
def runTrace2 : RateLimiter2 → List (String × Int) → List Bool × RateLimiter2
  | rl, [] => ([], rl)
  | rl, (ip, t) :: rest =>
      let step := rl.Allow ip t
      let res := runTrace2 step.2 rest
      (step.1 :: res.1, res.2)

/-- The bucket invariant of the design: every bucket holds between 0 and
capacity tokens. -/
def BucketsInv (rl : RateLimiter) : Prop :=
  ∀ p ∈ rl.visitors, 0 ≤ p.2.tokens ∧ p.2.tokens ≤ rl.capacity

/-! ## Middleware pipeline: internal/server/server.go and the unnamed
server variant

For the ordering claim each interceptor is abstracted to its
pre-delegation effect: it appends its own label to a trace and then
delegates to the wrapped handler (every interceptor in the source calls
next.ServeHTTP on the happy path after running its pre-delegation code). -/

/-- A handler as a trace transformer: receives the trace so far and
returns the trace after it ran. -/
def TraceHandler : Type := List String → List String

/-- applyMiddleware (server.go lines 76-81): the loop wraps the handler
from the last interceptor up to the first, so the first-listed one ends
outermost; this recursion computes the same nesting. -/
def applyMiddleware {α : Type} (handler : α) : List (α → α) → α
  | [] => handler
  | m :: ms => m (applyMiddleware handler ms)

/-- An interceptor that records its label before delegating. -/
def preTrace (label : String) (next : TraceHandler) : TraceHandler :=
  fun log => next (log ++ [label])

/-- The actual profile handler h.Me, abstracted to its trace label. -/
def meHandler : TraceHandler := fun log => log ++ ["Me"]

/-- The protected profile route of the unnamed server variant (lines
67-75), in source order: WithRequestID, WithSecurityHeaders, WithRateLimit,
WithCORS, WithAuth, WithLogging, each abstracted to its label. -/
def profileRoute : TraceHandler :=
  applyMiddleware meHandler
    [preTrace "WithRequestID", preTrace "WithSecurityHeaders",
     preTrace "WithRateLimit", preTrace "WithCORS",
     preTrace "WithAuth", preTrace "WithLogging"]

/-! ## Login handler response: internal/handlers/handlers.go -/

/-- A minimal JSON value for response bodies. -/
inductive JVal where
  | str : String → JVal
  | num : Int → JVal
  | obj : List (String × JVal) → JVal

/-- Keys of a JSON object. -/
def objKeys : JVal → List String
  | .obj fields => fields.map Prod.fst
  | _ => []

/-- Success response body of the src Login handler (handlers.go lines
183-190): a JSON object holding the token and the public user. -/
def loginResponse (token : String) (publicUser : JVal) : JVal :=
  .obj [("token", .str token), ("user", publicUser)]

/-- Success response body of the second src Login variant (handlers.go
lines 327-349): only the token field. -/
def loginResponseB (token : String) : JVal :=
  .obj [("token", .str token)]

/-- The TTL the src Login handler passes to GenerateToken: 24 hours
(handlers.go lines 172-177 and 342-343), in seconds. -/
def loginTokenTTL : Int := 24 * 60 * 60

/-- The token issuance step of the src login flow. -/
def loginIssueToken (a : Auth) (userID role : String) (now : Int) :
    Except String SignedToken :=
  a.generateToken userID role loginTokenTTL now

/-! ## Token rotation (refresh endpoint)

The RefreshToken handler is wired at the /api/auth/refresh route of the
unnamed server variant (line 58) and documented in the repository README
and tests, but its implementation is absent from the source tree, so it is
modelled from the spec below. -/

/-- Modelled from the spec: the WrongTokenType error of rotate (spec
section 4.1), returned when a non-refresh token is presented where a
refresh token is required; the RefreshToken handler is missing from the
source tree. -/
def errWrongTokenType : String := "wrong token type"

/-- Modelled from the spec: the fixed policy TTL of the issueAccessToken
convenience wrapper (spec section 4.1), one hour in seconds; the wrapper
is missing from the source tree. -/
def accessTokenTTL : Int := 3600

/-- Modelled from the spec: the fixed policy TTL of the issueRefreshToken
convenience wrapper (spec section 4.1), seven days in seconds; the wrapper
is missing from the source tree. -/
def refreshTokenTTL : Int := 7 * 24 * 3600

/-- Modelled from the spec: rotate (spec section 4.1), the composition the
missing RefreshToken handler performs: validate the presented token,
require tokenType == "refresh" (rejecting any other validated token with
WrongTokenType), then issue a fresh access/refresh pair for the same
subject and role with the policy TTLs. -/
def rotate (a : Auth) (tokenStr : Option SignedToken) (now : Int) :
    Except String (SignedToken × SignedToken) :=
  match a.parseToken tokenStr now with
  | .error e => .error e
  | .ok c =>
      if c.tokenType ≠ "refresh" then .error errWrongTokenType
      else
        match a.generateTokenWithType c.userID c.role "access"
            accessTokenTTL now with
        | .error e => .error e
        | .ok tokA =>
            match a.generateTokenWithType c.userID c.role "refresh"
                refreshTokenTTL now with
            | .error e => .error e
            | .ok tokR => .ok (tokA, tokR)

end Sentinel

namespace Sentinel

/-! ## Evaluation lemmas for the token engine -/

/-- Evaluation of issue on the happy path. -/
theorem generateTokenWithType_eq_ok (a : Auth) (uid role tt : String)
    (ttl now : Int) (hsec : a.secret ≠ "") (httl : ¬ ttl ≤ 0) :
    a.generateTokenWithType uid role tt ttl now =
      .ok ⟨"HS256", ⟨uid, role, tt, now, now + ttl⟩, a.secret⟩ := by
  unfold Auth.generateTokenWithType
  rw [if_neg hsec, if_neg httl]

/-- Evaluation of validate on a well-signed unexpired token. -/
theorem parseToken_eq_ok (a : Auth) (c : TokenClaims) (now : Int)
    (hsec : a.secret ≠ "") (hexp : now < c.expiresAt)
    (hskew : c.issuedAt ≤ now + maxFutureSkew) :
    a.parseToken (some ⟨"HS256", c, a.secret⟩) now = .ok c := by
  have h2 : ¬ c.expiresAt < now := by omega
  have h3 : ¬ now + maxFutureSkew < c.issuedAt := by omega
  simp [Auth.parseToken, isHMACAlg, hsec, hexp, h2, h3]

/-- Evaluation of validate on a well-signed token at or after its expiry. -/
theorem parseToken_eq_expired (a : Auth) (c : TokenClaims) (now : Int)
    (hsec : a.secret ≠ "") (hexp : c.expiresAt ≤ now) :
    a.parseToken (some ⟨"HS256", c, a.secret⟩) now = .error errLibExpired := by
  have h1 : ¬ now < c.expiresAt := by omega
  simp [Auth.parseToken, isHMACAlg, hsec, h1]

/-! ## Theorems for claims C1, C2, C8 -/

/-- C1: every token produced by issue with a configured secret is rejected by
validate with the expiry error whenever the validation time satisfies
now ≥ expiresAt (in particular at exactly now = expiresAt), and, all other
checks passing (the issued-at skew check), is accepted whenever
now < expiresAt. -/
theorem parse_expiry_boundary (a : Auth) (uid role tt : String)
    (ttl t0 now : Int) (tok : SignedToken)
    (hgen : a.generateTokenWithType uid role tt ttl t0 = .ok tok) :
    (tok.claims.expiresAt ≤ now →
      a.parseToken (some tok) now = .error errLibExpired) ∧
    (now < tok.claims.expiresAt → tok.claims.issuedAt ≤ now + maxFutureSkew →
      a.parseToken (some tok) now = .ok tok.claims) := by
  by_cases hs : a.secret = ""
  · rw [Auth.generateTokenWithType, if_pos hs] at hgen
    exact absurd hgen (by simp)
  · by_cases httl : ttl ≤ 0
    · rw [Auth.generateTokenWithType, if_neg hs, if_pos httl] at hgen
      exact absurd hgen (by simp)
    · rw [generateTokenWithType_eq_ok a uid role tt ttl t0 hs httl] at hgen
      injection hgen with h
      subst h
      exact ⟨fun hexp => parseToken_eq_expired a _ now hs hexp,
        fun hlt hskew => parseToken_eq_ok a _ now hs hlt hskew⟩

/-- Witness for C1: a concrete token with expiry 10 is rejected at times
10 and 11 and accepted at time 9. -/
theorem parse_expiry_boundary_instance :
    ((Auth.mk "s").generateTokenWithType "u" "r" "access" 10 0 =
      .ok ⟨"HS256", ⟨"u", "r", "access", 0, 10⟩, "s"⟩) ∧
    (Auth.mk "s").parseToken (some ⟨"HS256", ⟨"u", "r", "access", 0, 10⟩, "s"⟩) 10 =
      .error errLibExpired ∧
    (Auth.mk "s").parseToken (some ⟨"HS256", ⟨"u", "r", "access", 0, 10⟩, "s"⟩) 11 =
      .error errLibExpired ∧
    (Auth.mk "s").parseToken (some ⟨"HS256", ⟨"u", "r", "access", 0, 10⟩, "s"⟩) 9 =
      .ok ⟨"u", "r", "access", 0, 10⟩ := by
  have hgen : (Auth.mk "s").generateTokenWithType "u" "r" "access" 10 0 =
      .ok ⟨"HS256", ⟨"u", "r", "access", 0, 10⟩, "s"⟩ := rfl
  have h10 := parse_expiry_boundary (Auth.mk "s") "u" "r" "access" 10 0 10 _ hgen
  have h11 := parse_expiry_boundary (Auth.mk "s") "u" "r" "access" 10 0 11 _ hgen
  have h9 := parse_expiry_boundary (Auth.mk "s") "u" "r" "access" 10 0 9 _ hgen
  exact ⟨hgen, h10.1 (by decide), h11.1 (by decide),
    h9.2 (by decide) (by decide)⟩

/-- C2: for every subject, role, token type and positive ttl, with a
non-empty secret, GenerateTokenWithType succeeds and an immediate ParseToken
on the produced token (same secret, same time) succeeds and returns claims
with the supplied subject, role and token type. -/
theorem issue_then_validate (a : Auth) (uid role tt : String) (ttl now : Int)
    (hsec : a.secret ≠ "") (httl : 0 < ttl) :
    ∃ tok : SignedToken,
      a.generateTokenWithType uid role tt ttl now = .ok tok ∧
      a.parseToken (some tok) now = .ok tok.claims ∧
      tok.claims.userID = uid ∧ tok.claims.role = role ∧
      tok.claims.tokenType = tt := by
  refine ⟨⟨"HS256", ⟨uid, role, tt, now, now + ttl⟩, a.secret⟩,
    generateTokenWithType_eq_ok a uid role tt ttl now hsec (by omega),
    parseToken_eq_ok a _ now hsec (by change now < now + ttl; omega)
      (by change now ≤ now + 60; omega),
    rfl, rfl, rfl⟩

/-- Witness for C2 at a concrete subject, role, type, ttl and time. -/
theorem issue_then_validate_instance :
    (Auth.mk "secret-1").secret ≠ "" ∧ (0 : Int) < 3600 ∧
    ∃ tok : SignedToken,
      (Auth.mk "secret-1").generateTokenWithType "42" "admin" "refresh" 3600 5 =
        .ok tok ∧
      (Auth.mk "secret-1").parseToken (some tok) 5 = .ok tok.claims ∧
      tok.claims.userID = "42" ∧ tok.claims.role = "admin" ∧
      tok.claims.tokenType = "refresh" :=
  ⟨by decide, by decide,
    issue_then_validate (Auth.mk "secret-1") "42" "admin" "refresh" 3600 5
      (by decide) (by decide)⟩

/-- Helper: the two distinct issue error values are distinct strings. -/
theorem errNoSecret_ne_errInvalidTTL : errNoSecret ≠ errInvalidTTL := by
  simp [errNoSecret, errInvalidTTL]

/-- C8 counterexample: on an engine without a secret and ttl = 0 (a ttl ≤ 0
instance), issue fails with the no-secret error, not the invalid-ttl error,
so the unconditional clause that every ttl ≤ 0 call fails with InvalidTTL is
false as stated (the secret check runs first, auth.go lines 74-79). -/
theorem ttl_error_counterexample :
    (Auth.mk "").generateTokenWithType "u" "r" "access" 0 0 =
      .error errNoSecret ∧
    (Auth.mk "").generateTokenWithType "u" "r" "access" 0 0 ≠
      .error errInvalidTTL := by
  have h1 : (Auth.mk "").generateTokenWithType "u" "r" "access" 0 0 =
      .error errNoSecret := rfl
  refine ⟨h1, ?_⟩
  rw [h1]
  intro h2
  injection h2 with h3
  exact errNoSecret_ne_errInvalidTTL h3

/-- C8 amended: on an engine with a configured (non-empty) secret, every
ttl ≤ 0 call fails with InvalidTTL and produces no token; on an engine
without a secret every call fails with NoSecretConfigured. -/
theorem ttl_and_secret_errors (a : Auth) (uid role tt : String)
    (ttl now : Int) :
    (a.secret ≠ "" → ttl ≤ 0 →
      a.generateTokenWithType uid role tt ttl now = .error errInvalidTTL) ∧
    (a.secret = "" →
      a.generateTokenWithType uid role tt ttl now = .error errNoSecret) := by
  constructor
  · intro hsec httl
    unfold Auth.generateTokenWithType
    rw [if_neg hsec, if_pos httl]
  · intro hsec
    unfold Auth.generateTokenWithType
    rw [if_pos hsec]

/-- Witness for the amended C8: concrete failing calls of both kinds. -/
theorem ttl_and_secret_errors_instance :
    ((Auth.mk "s").secret ≠ "" ∧ (0 : Int) ≤ 0 ∧
      (Auth.mk "s").generateTokenWithType "u" "r" "access" 0 7 =
        .error errInvalidTTL) ∧
    ((Auth.mk "").secret = "" ∧
      (Auth.mk "").generateTokenWithType "u" "r" "access" 9 7 =
        .error errNoSecret) :=
  ⟨⟨by decide, by decide,
      (ttl_and_secret_errors (Auth.mk "s") "u" "r" "access" 0 7).1
        (by decide) (by decide)⟩,
    ⟨rfl, (ttl_and_secret_errors (Auth.mk "") "u" "r" "access" 9 7).2 rfl⟩⟩

/-! ## Rate limiter lemmas -/

/-- Membership after a map store: the stored entry or an old one. -/
theorem mem_setVisitor (ip : String) (v : Visitor)
    (l : List (String × Visitor)) (p : String × Visitor)
    (hp : p ∈ setVisitor ip v l) : p = (ip, v) ∨ p ∈ l := by
  induction l with
  | nil =>
      simp [setVisitor] at hp
      exact Or.inl hp
  | cons head rest ih =>
      obtain ⟨k, w⟩ := head
      by_cases hk : k = ip
      · rw [setVisitor, if_pos hk] at hp
        rcases List.mem_cons.mp hp with hpe | hmem
        · subst hk; exact Or.inl hpe
        · exact Or.inr (List.mem_cons_of_mem _ hmem)
      · rw [setVisitor, if_neg hk] at hp
        rcases List.mem_cons.mp hp with hpe | hmem
        · exact Or.inr (hpe ▸ List.mem_cons_self _ _)
        · rcases ih hmem with h1 | h2
          · exact Or.inl h1
          · exact Or.inr (List.mem_cons_of_mem _ h2)

/-- A successful lookup is a map entry. -/
theorem lookupV_mem (ip : String) (l : List (String × Visitor)) (v : Visitor)
    (h : lookupV ip l = some v) : (ip, v) ∈ l := by
  induction l with
  | nil => simp [lookupV] at h
  | cons head rest ih =>
      obtain ⟨k, w⟩ := head
      by_cases hk : k = ip
      · rw [lookupV, if_pos hk] at h
        injection h with hw
        subst hk
        subst hw
        exact List.mem_cons_self _ _
      · rw [lookupV, if_neg hk] at h
        exact List.mem_cons_of_mem _ (ih h)

/-- Allow on an absent key: create the bucket with capacity - 1 tokens and
admit (the creating request consumes one token). -/
theorem allow_none (rl : RateLimiter) (ip : String) (now : Int)
    (h : lookupV ip rl.visitors = none) :
    rl.Allow ip now =
      (true, { rl with
                visitors := setVisitor ip ⟨now, rl.capacity - 1⟩ rl.visitors }) := by
  unfold RateLimiter.Allow
  rw [h]

/-- Allow on a present key: the refill-then-consume arithmetic. -/
theorem allow_some (rl : RateLimiter) (ip : String) (now : Int) (v : Visitor)
    (h : lookupV ip rl.visitors = some v) :
    rl.Allow ip now =
      (let tokensToAdd := Int.tdiv (now - v.lastSeen) rl.rate
       let v1 : Visitor :=
         if 0 < tokensToAdd then
           ⟨now, if rl.capacity < v.tokens + tokensToAdd then rl.capacity
                 else v.tokens + tokensToAdd⟩
         else v
       if 0 < v1.tokens then
         (true, { rl with
                   visitors := setVisitor ip ⟨v1.lastSeen, v1.tokens - 1⟩ rl.visitors })
       else
         (false, { rl with visitors := setVisitor ip v1 rl.visitors })) := by
  unfold RateLimiter.Allow
  rw [h]

/-- Allow never changes the rate or the capacity. -/
theorem allow_fields (rl : RateLimiter) (ip : String) (now : Int) :
    (rl.Allow ip now).2.capacity = rl.capacity ∧
    (rl.Allow ip now).2.rate = rl.rate := by
  cases h : lookupV ip rl.visitors with
  | none => rw [allow_none rl ip now h]; exact ⟨rfl, rfl⟩
  | some v =>
      rw [allow_some rl ip now v h]
      dsimp only
      refine ⟨?_, ?_⟩
      · simp only [apply_ite Prod.snd, apply_ite RateLimiter.capacity, ite_self]
      · simp only [apply_ite Prod.snd, apply_ite RateLimiter.rate, ite_self]

/-- One Allow call keeps every bucket inside [0, capacity] when the
capacity is at least one. -/
theorem allow_keeps_inv (rl : RateLimiter) (ip : String) (now : Int)
    (hcap : 1 ≤ rl.capacity)
    (hinv : ∀ p ∈ rl.visitors, 0 ≤ p.2.tokens ∧ p.2.tokens ≤ rl.capacity) :
    ∀ p ∈ (rl.Allow ip now).2.visitors,
      0 ≤ p.2.tokens ∧ p.2.tokens ≤ rl.capacity := by
  intro p hp
  cases h : lookupV ip rl.visitors with
  | none =>
      rw [allow_none rl ip now h] at hp
      rcases mem_setVisitor _ _ _ _ hp with hpe | hmem
      · subst hpe
        exact ⟨by show (0 : Int) ≤ rl.capacity - 1; omega,
          by show rl.capacity - 1 ≤ rl.capacity; omega⟩
      · exact hinv p hmem
  | some v =>
      have hv1 : 0 ≤ v.tokens := (hinv (ip, v) (lookupV_mem _ _ _ h)).1
      have hv2 : v.tokens ≤ rl.capacity := (hinv (ip, v) (lookupV_mem _ _ _ h)).2
      rw [allow_some rl ip now v h] at hp
      dsimp only at hp
      by_cases hadd : 0 < Int.tdiv (now - v.lastSeen) rl.rate
      · rw [if_pos hadd] at hp
        by_cases hcl : rl.capacity <
            v.tokens + Int.tdiv (now - v.lastSeen) rl.rate
        · rw [if_pos hcl] at hp
          rw [if_pos (show (0 : Int) <
              (⟨now, rl.capacity⟩ : Visitor).tokens by show (0:Int) < rl.capacity; omega)] at hp
          rcases mem_setVisitor _ _ _ _ hp with hpe | hmem
          · subst hpe
            exact ⟨by show (0 : Int) ≤ rl.capacity - 1; omega,
              by show rl.capacity - 1 ≤ rl.capacity; omega⟩
          · exact hinv p hmem
        · rw [if_neg hcl] at hp
          rw [if_pos (show (0 : Int) <
              (⟨now, v.tokens + Int.tdiv (now - v.lastSeen) rl.rate⟩ : Visitor).tokens by
                show (0:Int) < v.tokens + Int.tdiv (now - v.lastSeen) rl.rate; omega)] at hp
          rcases mem_setVisitor _ _ _ _ hp with hpe | hmem
          · subst hpe
            refine ⟨?_, ?_⟩
            · show (0 : Int) ≤ v.tokens + Int.tdiv (now - v.lastSeen) rl.rate - 1
              omega
            · show v.tokens + Int.tdiv (now - v.lastSeen) rl.rate - 1 ≤ rl.capacity
              omega
          · exact hinv p hmem
      · rw [if_neg hadd] at hp
        by_cases hcons : 0 < v.tokens
        · rw [if_pos hcons] at hp
          rcases mem_setVisitor _ _ _ _ hp with hpe | hmem
          · subst hpe
            exact ⟨by show (0 : Int) ≤ v.tokens - 1; omega,
              by show v.tokens - 1 ≤ rl.capacity; omega⟩
          · exact hinv p hmem
        · rw [if_neg hcons] at hp
          rcases mem_setVisitor _ _ _ _ hp with hpe | hmem
          · subst hpe; exact ⟨hv1, hv2⟩
          · exact hinv p hmem

/-- The bucket invariant is preserved through any call sequence. -/
theorem runTrace_keeps_inv (calls : List (String × Int)) :
    ∀ rl : RateLimiter, 1 ≤ rl.capacity → BucketsInv rl →
      BucketsInv (runTrace rl calls).2 := by
  induction calls with
  | nil => intro rl _ hinv; exact hinv
  | cons head rest ih =>
      intro rl hcap hinv
      obtain ⟨ip, t⟩ := head
      show BucketsInv (runTrace (rl.Allow ip t).2 rest).2
      apply ih
      · rw [(allow_fields rl ip t).1]; exact hcap
      · intro p hp
        rw [(allow_fields rl ip t).1]
        exact allow_keeps_inv rl ip t hcap hinv p hp

/-! ## Theorems for claims C6, C7, C10 -/

/-- C6 counterexample: NewRateLimiter accepts capacity 0, and the very
first Allow call creates a bucket holding -1 tokens, violating
0 ≤ availableTokens (and even admits the request). -/
theorem bucket_token_range_counterexample :
    ((newRateLimiter 2 0).Allow "k" 0).2.visitors = [("k", ⟨0, -1⟩)] ∧
    ((newRateLimiter 2 0).Allow "k" 0).1 = true ∧
    ¬ (0 ≤ (-1 : Int)) := by
  refine ⟨rfl, rfl, by decide⟩

/-- C6 amended: for every limiter constructed with capacity ≥ 1 and every
bucket in its map, 0 ≤ availableTokens ≤ capacity holds at every
observation point of any Allow call sequence: a fresh map has no buckets, a
newly created bucket holds capacity - 1 tokens, and every Allow call
preserves the range (refill clamps to capacity; a token is consumed only
when one is available). -/
theorem bucket_token_range (rate cap : Int) (hcap : 1 ≤ cap)
    (calls : List (String × Int)) :
    BucketsInv (runTrace (newRateLimiter rate cap) calls).2 := by
  apply runTrace_keeps_inv calls (newRateLimiter rate cap) hcap
  intro p hp
  simp [newRateLimiter] at hp

/-- Witness for the amended C6 at capacity 5 and a concrete call list. -/
theorem bucket_token_range_instance :
    (1 : Int) ≤ 5 ∧
    BucketsInv (runTrace (newRateLimiter 2 5)
      [("k", 0), ("k", 1), ("j", 1), ("k", 9)]).2 :=
  ⟨by decide,
    bucket_token_range 2 5 (by decide) [("k", 0), ("k", 1), ("j", 1), ("k", 9)]⟩

/-- The clamp of the refill step is a minimum. -/
theorem clamp_eq_min (a b : Int) : (if a < b then a else b) = min a b := by
  split <;> omega

/-- C7: with capacity 5 and refill interval 2, five Allow calls on a fresh
key at time 0 all admit, the sixth rejects, and the next call after one
refill interval admits again; in general a first-seen key gets a bucket
with capacity - 1 tokens and lastRefill = now, and a later call adds
floor(elapsed / refillInterval) tokens when positive (clamped to capacity,
advancing lastRefill) before consuming a token when one is available. -/
theorem rate_limit_burst_and_refill :
    (runTrace (newRateLimiter 2 5)
        [("k", 0), ("k", 0), ("k", 0), ("k", 0), ("k", 0), ("k", 0), ("k", 2)]).1 =
      [true, true, true, true, true, false, true] ∧
    (∀ rl : RateLimiter, ∀ ip : String, ∀ now : Int,
      lookupV ip rl.visitors = none →
      rl.Allow ip now =
        (true, { rl with
                  visitors := setVisitor ip ⟨now, rl.capacity - 1⟩ rl.visitors })) ∧
    (∀ rl : RateLimiter, ∀ ip : String, ∀ now : Int, ∀ v : Visitor,
      lookupV ip rl.visitors = some v →
      rl.Allow ip now =
        (let add := Int.tdiv (now - v.lastSeen) rl.rate
         let refilled := if 0 < add then min rl.capacity (v.tokens + add)
                         else v.tokens
         let seen := if 0 < add then now else v.lastSeen
         if 0 < refilled then
           (true, { rl with
                     visitors := setVisitor ip ⟨seen, refilled - 1⟩ rl.visitors })
         else
           (false, { rl with visitors := setVisitor ip ⟨seen, refilled⟩ rl.visitors }))) := by
  refine ⟨by decide, fun rl ip now h => allow_none rl ip now h, ?_⟩
  intro rl ip now v h
  rw [allow_some rl ip now v h]
  dsimp only
  by_cases hadd : 0 < Int.tdiv (now - v.lastSeen) rl.rate
  · simp [hadd, clamp_eq_min]
  · simp [hadd]

/-- Witness for C7: the burst scenario plus concrete creation and refill
steps. -/
theorem rate_limit_burst_and_refill_instance :
    (lookupV "k" (newRateLimiter 2 5).visitors = none ∧
      (newRateLimiter 2 5).Allow "k" 0 =
        (true, { visitors := [("k", ⟨0, 4⟩)], rate := 2, capacity := 5 })) ∧
    (lookupV "k" [("k", (⟨0, 0⟩ : Visitor))] = some ⟨0, 0⟩ ∧
      (RateLimiter.mk [("k", ⟨0, 0⟩)] 2 5).Allow "k" 2 =
        (true, { visitors := [("k", ⟨2, 0⟩)], rate := 2, capacity := 5 })) := by
  refine ⟨⟨rfl, ?_⟩, ⟨rfl, ?_⟩⟩
  · have h := rate_limit_burst_and_refill.2.1 (newRateLimiter 2 5) "k" 0 rfl
    exact h.trans (by decide)
  · have h := rate_limit_burst_and_refill.2.2
      (RateLimiter.mk [("k", ⟨0, 0⟩)] 2 5) "k" 2 ⟨0, 0⟩ rfl
    exact h.trans (by decide)

/-- One step of the fine-grained Allow equals one step of the coarse Allow
on the same bucket map, rate and capacity. -/
theorem allow2_eq_allow (vis : List (String × Visitor)) (r c : Int)
    (st : Bool) (ip : String) (now : Int) :
    (RateLimiter2.mk vis r c st).Allow ip now =
      (((RateLimiter.mk vis r c).Allow ip now).1,
        RateLimiter2.mk (((RateLimiter.mk vis r c).Allow ip now).2.visitors)
          r c st) := by
  cases h : lookupV ip vis with
  | none =>
      unfold RateLimiter2.Allow RateLimiter.Allow
      dsimp only
      rw [h]
  | some v =>
      unfold RateLimiter2.Allow RateLimiter.Allow
      dsimp only
      rw [h]
      dsimp only
      by_cases hadd : 0 < Int.tdiv (now - v.lastSeen) r <;>
        by_cases hcl : c < v.tokens + Int.tdiv (now - v.lastSeen) r <;>
        by_cases hc1 : (0 : Int) < c <;>
        by_cases hc2 : 0 < v.tokens + Int.tdiv (now - v.lastSeen) r <;>
        by_cases hc3 : 0 < v.tokens <;>
        simp [hadd, hcl, hc1, hc2, hc3]

/-- Sequential runs of both limiter variants agree step by step. -/
theorem runTrace2_eq (calls : List (String × Int)) :
    ∀ (vis : List (String × Visitor)) (r c : Int) (st : Bool),
      (runTrace2 (RateLimiter2.mk vis r c st) calls).1 =
        (runTrace (RateLimiter.mk vis r c) calls).1 ∧
      (runTrace2 (RateLimiter2.mk vis r c st) calls).2.visitors =
        (runTrace (RateLimiter.mk vis r c) calls).2.visitors := by
  induction calls with
  | nil => intro vis r c st; exact ⟨rfl, rfl⟩
  | cons head rest ih =>
      intro vis r c st
      obtain ⟨ip, t⟩ := head
      simp only [runTrace, runTrace2]
      rw [allow2_eq_allow vis r c st ip t]
      dsimp only
      have h1 : ((RateLimiter.mk vis r c).Allow ip t).2.capacity = c :=
        (allow_fields (RateLimiter.mk vis r c) ip t).1
      have h2 : ((RateLimiter.mk vis r c).Allow ip t).2.rate = r :=
        (allow_fields (RateLimiter.mk vis r c) ip t).2
      cases hX : ((RateLimiter.mk vis r c).Allow ip t).2 with
      | mk vis2 r2 c2 =>
          rw [hX] at h1 h2
          dsimp only at h1 h2
          dsimp only
          rw [h1, h2]
          exact ⟨congrArg (List.cons _) (ih vis2 r c st).1, (ih vis2 r c st).2⟩

/-- C10: the coarse single-mutex limiter and the fine-grained per-visitor
variant are sequentially observationally equivalent: constructed with equal
rate and capacity, every sequence of Allow calls at given times yields the
same admit/reject decisions and equal per-key token counts and lastSeen
timestamps. -/
theorem limiters_equivalent (rate cap : Int) (calls : List (String × Int)) :
    (runTrace (newRateLimiter rate cap) calls).1 =
      (runTrace2 (newRateLimiter2 rate cap) calls).1 ∧
    (runTrace (newRateLimiter rate cap) calls).2.visitors =
      (runTrace2 (newRateLimiter2 rate cap) calls).2.visitors := by
  have h := runTrace2_eq calls [] rate cap false
  exact ⟨h.1.symm, h.2.symm⟩

/-! ## Theorems for claims C3, C4, C5, C9 -/

/-- C3 counterexample: on the protected profile route the interceptors run
request-ID, security headers, rate limit, CORS, auth, logging — not the
claimed order with CORS before rate limit. -/
theorem middleware_order_counterexample :
    profileRoute [] =
      ["WithRequestID", "WithSecurityHeaders", "WithRateLimit", "WithCORS",
       "WithAuth", "WithLogging", "Me"] ∧
    profileRoute [] ≠
      ["WithRequestID", "WithSecurityHeaders", "WithCORS", "WithRateLimit",
       "WithAuth", "WithLogging", "Me"] := by
  exact ⟨rfl, by decide⟩

/-- C3 amended: applyMiddleware nests the first-listed interceptor
outermost, so its pre-delegation code runs first on every request, and the
protected profile route executes request-ID, then security headers, then
rate limit, then CORS, then the authentication gate, then logging, with the
actual handler innermost. -/
theorem middleware_order (α : Type) (h : α) (m1 m2 m3 m4 m5 m6 : α → α) :
    applyMiddleware h [m1, m2, m3, m4, m5, m6] =
      m1 (m2 (m3 (m4 (m5 (m6 h))))) ∧
    profileRoute [] =
      ["WithRequestID", "WithSecurityHeaders", "WithRateLimit", "WithCORS",
       "WithAuth", "WithLogging", "Me"] := by
  exact ⟨rfl, rfl⟩

/-- C4: the success response of the src Login handler carries the keys
token and user (only token in the second variant) and none of the fields
access_token, refresh_token, token_type, expires_in that the claim, the
repository tests and the README require. -/
theorem login_response_missing_token_pair (token : String) (publicUser : JVal) :
    objKeys (loginResponse token publicUser) = ["token", "user"] ∧
    objKeys (loginResponseB token) = ["token"] ∧
    "access_token" ∉ objKeys (loginResponse token publicUser) ∧
    "refresh_token" ∉ objKeys (loginResponse token publicUser) ∧
    "token_type" ∉ objKeys (loginResponse token publicUser) ∧
    "expires_in" ∉ objKeys (loginResponse token publicUser) := by
  have hk : objKeys (loginResponse token publicUser) = ["token", "user"] := rfl
  refine ⟨rfl, rfl, ?_, ?_, ?_, ?_⟩ <;> rw [hk] <;> decide

/-- C5: the src login flow issues one access token with a 24-hour TTL
(86400 seconds), not the one-hour access TTL (3600 seconds, the documented
expires_in) and seven-day refresh TTL the claim states. -/
theorem login_ttl_not_one_hour :
    loginIssueToken (Auth.mk "secret-1") "1" "user" 0 =
      .ok ⟨"HS256", ⟨"1", "user", "access", 0, 86400⟩, "secret-1"⟩ ∧
    loginTokenTTL = 86400 ∧
    (86400 : Int) ≠ 3600 ∧ (86400 : Int) ≠ 7 * 24 * 3600 := by
  exact ⟨rfl, rfl, by decide, by decide⟩

/-- C9: rotate presented a validated token whose type is access fails with
WrongTokenType; presented a valid refresh token it succeeds and returns a
new access/refresh pair whose claims carry the same subject and role. -/
theorem rotate_spec (a : Auth) (tokenStr : Option SignedToken) (now : Int)
    (c : TokenClaims) (hparse : a.parseToken tokenStr now = .ok c) :
    (c.tokenType = "access" →
      rotate a tokenStr now = .error errWrongTokenType) ∧
    (c.tokenType = "refresh" →
      ∃ tokA tokR : SignedToken,
        rotate a tokenStr now = .ok (tokA, tokR) ∧
        tokA.claims.userID = c.userID ∧ tokA.claims.role = c.role ∧
        tokA.claims.tokenType = "access" ∧
        tokR.claims.userID = c.userID ∧ tokR.claims.role = c.role ∧
        tokR.claims.tokenType = "refresh") := by
  have hsec : a.secret ≠ "" := by
    intro he
    rw [Auth.parseToken.eq_def, if_pos he] at hparse
    exact absurd hparse (by simp)
  constructor
  · intro hacc
    have hne : c.tokenType ≠ "refresh" := by rw [hacc]; decide
    unfold rotate
    rw [hparse]
    dsimp only
    rw [if_pos hne]
  · intro href
    unfold rotate
    rw [hparse]
    dsimp only
    rw [if_neg (fun hne => hne href)]
    rw [generateTokenWithType_eq_ok a c.userID c.role "access"
      accessTokenTTL now hsec (by decide)]
    rw [generateTokenWithType_eq_ok a c.userID c.role "refresh"
      refreshTokenTTL now hsec (by decide)]
    exact ⟨_, _, rfl, rfl, rfl, rfl, rfl, rfl, rfl⟩

/-- Witness for C9: a concrete refresh token rotates into a fresh pair and
a concrete access token is rejected with WrongTokenType. -/
theorem rotate_spec_instance :
    ((Auth.mk "s").parseToken
        (some ⟨"HS256", ⟨"7", "admin", "refresh", 0, 100⟩, "s"⟩) 1 =
      .ok ⟨"7", "admin", "refresh", 0, 100⟩) ∧
    (∃ tokA tokR : SignedToken,
      rotate (Auth.mk "s")
          (some ⟨"HS256", ⟨"7", "admin", "refresh", 0, 100⟩, "s"⟩) 1 =
        .ok (tokA, tokR) ∧
      tokA.claims.userID = "7" ∧ tokA.claims.role = "admin" ∧
      tokA.claims.tokenType = "access" ∧
      tokR.claims.userID = "7" ∧ tokR.claims.role = "admin" ∧
      tokR.claims.tokenType = "refresh") ∧
    ((Auth.mk "s").parseToken
        (some ⟨"HS256", ⟨"7", "admin", "access", 0, 100⟩, "s"⟩) 1 =
      .ok ⟨"7", "admin", "access", 0, 100⟩) ∧
    rotate (Auth.mk "s")
        (some ⟨"HS256", ⟨"7", "admin", "access", 0, 100⟩, "s"⟩) 1 =
      .error errWrongTokenType := by
  have hp1 : (Auth.mk "s").parseToken
      (some ⟨"HS256", ⟨"7", "admin", "refresh", 0, 100⟩, "s"⟩) 1 =
      .ok ⟨"7", "admin", "refresh", 0, 100⟩ := rfl
  have hp2 : (Auth.mk "s").parseToken
      (some ⟨"HS256", ⟨"7", "admin", "access", 0, 100⟩, "s"⟩) 1 =
      .ok ⟨"7", "admin", "access", 0, 100⟩ := rfl
  exact ⟨hp1, (rotate_spec (Auth.mk "s") _ 1 _ hp1).2 rfl, hp2,
    (rotate_spec (Auth.mk "s") _ 1 _ hp2).1 rfl⟩

end Sentinel
